import Mathlib

/-
  Shallow embedding of the json-proxy-middleware request-forwarding handler
  (the most complete variant of the module, the one carrying the optional
  debug curl header).  JS strings are modelled as lists of characters,
  JS objects used as header maps as insertion-ordered association lists,
  and the per-request control flow of the handler as a pure function from
  the configuration, the inbound request and the trace of stream events to
  the list of observable effects plus the optional outbound descriptor.
-/

set_option linter.unusedVariables false

abbrev Str := List Char

/-- Characters that are awkward to spell literally are built from their
code points. -/
def lcurly : Char := Char.ofNat 123

def rcurly : Char := Char.ofNat 125

def aposC : Char := Char.ofNat 39

def dquoteC : Char := Char.ofNat 34

def backslashC : Char := Char.ofNat 92

/-- JS values a `urlHost` configuration (or resolver) may produce: the code
only distinguishes strings from everything else via a typeof check, so a
small universe with strings, numbers, booleans and undefined suffices. -/
inductive JsVal where
  | vstr (s : Str)
  | vnum (n : Int)
  | vbool (b : Bool)
  | vundef
  deriving DecidableEq

/-- Models the JS check `typeof v === 'string'`. -/
def JsVal.isString : JsVal → Bool
  | .vstr _ => true
  | _ => false

/-- Parsed JSON bodies, as produced by `bodyParser.json()` (the middleware's
documented precondition); numbers are modelled on integers, which is enough
for every property stated here. -/
inductive JsonValue where
  | jnull
  | jbool (b : Bool)
  | jnum (n : Int)
  | jstr (s : Str)
  | jarr (xs : List JsonValue)
  | jobj (fs : List (Str × JsonValue))

/-- Hexadecimal digit (uppercase), as produced by JSON escapes and by
percent-encoding. -/
def hexDigit (n : Nat) : Char :=
  if n < 10 then Char.ofNat (48 + n) else Char.ofNat (55 + n)

/-- One character of a JSON string, escaped as `JSON.stringify` escapes it. -/
def jsonEscapeChar (c : Char) : Str :=
  if c = dquoteC then [backslashC, dquoteC]
  else if c = backslashC then [backslashC, backslashC]
  else if c = Char.ofNat 8 then [backslashC, 'b']
  else if c = Char.ofNat 9 then [backslashC, 't']
  else if c = Char.ofNat 10 then [backslashC, 'n']
  else if c = Char.ofNat 12 then [backslashC, 'f']
  else if c = Char.ofNat 13 then [backslashC, 'r']
  else if c.toNat < 32 then
    [backslashC, 'u', '0', '0', hexDigit (c.toNat / 16), hexDigit (c.toNat % 16)]
  else [c]

/-- JSON serialization of a string literal (quotes plus escaped content). -/
def jsonQuote (s : Str) : Str :=
  dquoteC :: (s.map jsonEscapeChar).flatten ++ [dquoteC]

/-- Decimal rendering of an integer, as `JSON.stringify` renders integral
numbers. -/
def intToStr (n : Int) : Str :=
  if n < 0 then '-' :: Nat.toDigits 10 (-n).toNat else Nat.toDigits 10 n.toNat

mutual

/-- Models `JSON.stringify` on parsed JSON values. -/
def jsonStringify : JsonValue → Str
  | .jnull => ['n', 'u', 'l', 'l']
  | .jbool true => ['t', 'r', 'u', 'e']
  | .jbool false => ['f', 'a', 'l', 's', 'e']
  | .jnum n => intToStr n
  | .jstr s => jsonQuote s
  | .jarr xs => '[' :: jsonStringifyArr xs ++ [']']
  | .jobj fs => lcurly :: jsonStringifyObj fs ++ [rcurly]

/-- Comma-separated serialization of array elements. -/
def jsonStringifyArr : List JsonValue → Str
  | [] => []
  | [x] => jsonStringify x
  | x :: y :: xs => jsonStringify x ++ ',' :: jsonStringifyArr (y :: xs)

/-- Comma-separated serialization of object fields, keys in insertion
order. -/
def jsonStringifyObj : List (Str × JsonValue) → Str
  | [] => []
  | [(k, v)] => jsonQuote k ++ ':' :: jsonStringify v
  | (k, v) :: f :: fs => jsonQuote k ++ ':' :: jsonStringify v ++ ',' :: jsonStringifyObj (f :: fs)

end

/-- The characters `encodeURI` leaves unescaped: alphanumerics, the URI mark
set, the URI reserved set and the hash sign. -/
def uriUnescapedChar (c : Char) : Bool :=
  ('A' ≤ c && c ≤ 'Z') || ('a' ≤ c && c ≤ 'z') || ('0' ≤ c && c ≤ '9') ||
  c ∈ ['-', '_', '.', '!', '~', '*', aposC, '(', ')'] ||
  c ∈ [';', '/', '?', ':', '@', '&', '=', '+', '$', ',', '#']

/-- UTF-8 bytes of a code point. -/
def utf8Bytes (n : Nat) : List Nat :=
  if n < 128 then [n]
  else if n < 2048 then [192 + n / 64, 128 + n % 64]
  else if n < 65536 then [224 + n / 4096, 128 + (n / 64) % 64, 128 + n % 64]
  else [240 + n / 262144, 128 + (n / 4096) % 64, 128 + (n / 64) % 64, 128 + n % 64]

/-- Percent-escape of one byte, with uppercase hex as `encodeURI`
produces. -/
def percentEncodeByte (b : Nat) : Str :=
  ['%', hexDigit (b / 16), hexDigit (b % 16)]

/-- Encoding of a single character under `encodeURI`. -/
def encodeURIChar (c : Char) : Str :=
  if uriUnescapedChar c then [c]
  else ((utf8Bytes c.toNat).map percentEncodeByte).flatten

/-- Models JS `encodeURI`. -/
def encodeURI (s : Str) : Str :=
  (s.map encodeURIChar).flatten

/-- Models JS `haystack.replace(needle, '')` (and more generally
replacement by a plain string): only the first occurrence of the needle is
replaced. -/
def listReplaceFirst : Str → Str → Str → Str
  | [], needle, repl => if needle.isPrefixOf [] then repl else []
  | c :: rest, needle, repl =>
    if needle.isPrefixOf (c :: rest) then repl ++ (c :: rest).drop needle.length
    else c :: listReplaceFirst rest needle repl

/-- JS object update `m[k] = v` on an insertion-ordered association list:
an existing key keeps its position and gets the new value, a fresh key is
appended. -/
def objSet (m : List (Str × Str)) (k v : Str) : List (Str × Str) :=
  match m with
  | [] => [(k, v)]
  | (k', v') :: rest => if k' = k then (k, v) :: rest else (k', v') :: objSet rest k v

/-- JS object spread `\x7b...a, ...b\x7d` as insertion-ordered maps: keys of
`b` override same-named keys of `a` in place, new keys are appended in
order. -/
def objSpread (a b : List (Str × Str)) : List (Str × Str) :=
  b.foldl (fun m kv => objSet m kv.1 kv.2) a

/-- Property lookup on a JS object modelled as an association list with
unique keys. -/
def jsLookup (k : Str) (m : List (Str × Str)) : Option Str :=
  match m with
  | [] => none
  | (k', v) :: rest => if k' = k then some v else jsLookup k rest

/-- An opaque transport-level error, the `err` value delivered by a stream
`error` event. -/
structure TransportErr where
  msg : Str
  deriving DecidableEq

/-- The `name` field of the VError the handler hands to `next`. -/
inductive ErrKind where
  | PROXY_HOST_ERROR
  | PROXY_REQUEST_ERROR
  | PROXY_RESPONSE_ERROR
  deriving DecidableEq

/-- Modelled from the spec: the spec names the code's `PROXY_HOST_ERROR`
kind `HOST_RESOLUTION_ERROR`. -/
def HOST_RESOLUTION_ERROR : ErrKind := ErrKind.PROXY_HOST_ERROR

/-- Modelled from the spec: the spec names the code's `PROXY_REQUEST_ERROR`
kind `UPSTREAM_REQUEST_ERROR`. -/
def UPSTREAM_REQUEST_ERROR : ErrKind := ErrKind.PROXY_REQUEST_ERROR

/-- Modelled from the spec: the spec names the code's `PROXY_RESPONSE_ERROR`
kind `UPSTREAM_RESPONSE_ERROR`. -/
def UPSTREAM_RESPONSE_ERROR : ErrKind := ErrKind.PROXY_RESPONSE_ERROR

/-- The VError passed to the error continuation: name, message, optional
cause, the `info.detail` string, and the `info.meta` payload
(additionalLogMessage, the destination url when present, and the parsed
inbound body). -/
structure ForwardError where
  name : ErrKind
  message : Str
  cause : Option TransportErr
  detail : Str
  metaAdditionalLogMessage : Str
  metaUrl : Option Str
  metaBody : JsonValue

/-- The inbound request as the handler reads it: method, full original
url, the mount prefix consumed by the router (`baseUrl`), the parsed JSON
body (the middleware requires `bodyParser.json()`, which always sets a
parsed body, the empty object for an empty inbound body), and opaque
transport passthrough options. -/
structure Req where
  method : Str
  originalUrl : Str
  baseUrl : Str
  body : JsonValue
  agentOptions : List (Str × Str)

/-- `urlHost` configuration: a fixed value or a resolver invoked per
request; either may be or produce a non-string. -/
inductive UrlHost where
  | fixedHost (v : JsVal)
  | hostResolver (f : Req → JsVal)

/-- `headers` configuration: a fixed mapping, a per-request resolver, or
absent (JS `undefined`, defaulted to the empty object). -/
inductive HeaderOption where
  | fixedHeaders (m : List (Str × Str))
  | headersResolver (f : Req → List (Str × Str))
  | noHeaders

/-- `addCurlHeader` configuration: a fixed boolean (false when the option
is omitted) or a per-request resolver. -/
inductive AddCurlHeader where
  | fixedFlag (b : Bool)
  | flagResolver (f : Req → Bool)

/-- The shape of a supplied logger: which of the two duck-typed methods it
actually carries. -/
structure LoggerShape where
  hasInfo : Bool
  hasError : Bool
  deriving DecidableEq

/-- The construction-time options of the middleware. -/
structure ProxyMiddlewareOptions where
  additionalLogMessage : Str
  headers : HeaderOption
  logger : Option LoggerShape
  urlHost : UrlHost
  addCurlHeader : AddCurlHeader

/-- Events the two streams can deliver after the outbound request is
issued: an `error` on the outbound request stream, an `error` on the piped
response stream, and `finish` on the response stream. -/
inductive StreamEvent where
  | reqError (e : TransportErr)
  | resError (e : TransportErr)
  | finish
  deriving DecidableEq

/-- Observable effects of one pass of the handler, in order: log calls,
invocations of the error continuation `next`, and response header
writes. -/
inductive Effect where
  | logInfoMsg (msg : Str)
  | logErrorMsg (msg : Str)
  | callNext (e : ForwardError)
  | setHeader (name value : Str)

/-- The outbound request descriptor handed to the transport: the
explicitly set fields win over any same-named key of the spread
`agentOptions`, which are carried over verbatim. -/
structure RequestDescriptor where
  method : Str
  url : Str
  headers : List (Str × Str)
  body : Str
  agentOptions : List (Str × Str)

/-- One pass of the handler: the ordered effects plus the outbound
descriptor, when one was issued. -/
structure HandlerResult where
  effects : List Effect
  outbound : Option RequestDescriptor

/-- `typeof options.urlHost === 'function' ? options.urlHost(req, res) :
options.urlHost`. -/
def resolveHost (o : ProxyMiddlewareOptions) (r : Req) : JsVal :=
  match o.urlHost with
  | .fixedHost v => v
  | .hostResolver f => f r

/-- `req.originalUrl.replace(req.baseUrl, '')`. -/
def urlPathOf (r : Req) : Str :=
  listReplaceFirst r.originalUrl r.baseUrl []

/-- `typeof options.headers === 'function' ? options.headers(req, res) :
options.headers || \x7b\x7d`. -/
def configHeaders (o : ProxyMiddlewareOptions) (r : Req) : List (Str × Str) :=
  match o.headers with
  | .fixedHeaders m => m
  | .headersResolver f => f r
  | .noHeaders => []

/-- The fixed default headers of the module. -/
def defaultHeaders : List (Str × Str) :=
  [("Accept".toList, "application/json".toList),
   ("Content-Type".toList, "application/json".toList)]

/-- The merged outbound headers: spread of the resolved configuration over
the defaults, configured keys winning. -/
def resolveHeaders (o : ProxyMiddlewareOptions) (r : Req) : List (Str × Str) :=
  objSpread defaultHeaders (configHeaders o r)

/-- `addCurlHeader && typeof addCurlHeader === 'function' ?
addCurlHeader(req, res) : addCurlHeader`. -/
def resolveAddCurl (o : ProxyMiddlewareOptions) (r : Req) : Bool :=
  match o.addCurlHeader with
  | .fixedFlag b => b
  | .flagResolver f => f r

/-- `logger && logger.info && typeof logger.info === 'function'`. -/
def canLogInfo (o : ProxyMiddlewareOptions) : Bool :=
  match o.logger with
  | some l => l.hasInfo
  | none => false

/-- `logger && logger.error && typeof logger.error === 'function'`. -/
def canLogError (o : ProxyMiddlewareOptions) : Bool :=
  match o.logger with
  | some l => l.hasError
  | none => false

/-- The log message with the optional `additionalLogMessage` appended when
it is a non-empty (truthy) string. -/
def fullMsg (base alm : Str) : Str :=
  if alm.isEmpty then base else base ++ ' ' :: alm

/-- The outbound request descriptor the handler builds once the host has
resolved to a string. -/
def buildDescriptor (o : ProxyMiddlewareOptions) (r : Req) (host : Str) : RequestDescriptor :=
  ⟨r.method, host ++ urlPathOf r, resolveHeaders o r, jsonStringify r.body, r.agentOptions⟩

/-- The `-H 'key: value' ` fragments of the reconstructed curl command,
folded over the outbound headers in insertion order. -/
def curlHeadersString (hs : List (Str × Str)) : Str :=
  hs.foldl
    (fun acc kv =>
      acc ++ '-' :: 'H' :: ' ' :: aposC :: kv.1 ++ ':' :: ' ' :: kv.2 ++ aposC :: [' '])
    []

/-- `JSON.stringify(requestOptions.body || \x7b\x7d)`: the already
serialized body is stringified a second time, the empty string falling back
to the empty object. -/
def curlBodyString (body : Str) : Str :=
  if body.isEmpty then jsonStringify (JsonValue.jobj [])
  else jsonStringify (JsonValue.jstr body)

/-- The reconstructed curl command for the outbound request. -/
def createCurlRequest (d : RequestDescriptor) : Str :=
  aposC :: d.url ++ aposC :: ' ' :: '-' :: 'X' :: ' ' :: d.method ++
    ' ' :: curlHeadersString d.headers ++ ' ' :: '-' :: 'd' :: ' ' :: curlBodyString d.body

/-- `20 * 2048`: the conservative cap on the encoded curl header. -/
def MAX_HEADER_SIZE : Nat := 20 * 2048

/-- The response header carrying the encoded curl command. -/
def xCurlCommandName : Str := "x-curl-command".toList

/-- The VError built on host-resolution failure. -/
def hostVError (alm : Str) (body : JsonValue) : ForwardError :=
  ⟨ErrKind.PROXY_HOST_ERROR,
   "`urlHost` could not be resolved to a valid string.".toList,
   none,
   ("The options.urlHost provided either was not a string, or the value" ++
    "returned from invoking urlHost() was not a string.").toList,
   alm, none, body⟩

/-- The detail string shared by the request and response stream errors. -/
def pathHostDetail (urlPath host : Str) : Str :=
  "The proxied path is ".toList ++ urlPath ++ ". The host is ".toList ++ host ++ ['.']

/-- The VError built when the outbound request stream reports an error. -/
def requestVError (alm urlPath host : Str) (body : JsonValue) (e : TransportErr) : ForwardError :=
  ⟨ErrKind.PROXY_REQUEST_ERROR,
   "There was an error while making the proxied request.".toList,
   some e, pathHostDetail urlPath host, alm, some (host ++ urlPath), body⟩

/-- The VError built when the piped response stream reports an error. -/
def responseVError (alm urlPath host : Str) (body : JsonValue) (e : TransportErr) : ForwardError :=
  ⟨ErrKind.PROXY_RESPONSE_ERROR,
   "There was an error while streaming the response.".toList,
   some e, pathHostDetail urlPath host, alm, some (host ++ urlPath), body⟩

/-- The effects of one stream event: the registered handlers log (when the
matching capability is present) and hand the classified VError to `next`;
`finish` only logs the end-of-request event. -/
def eventEffects (o : ProxyMiddlewareOptions) (r : Req) (host : Str) : StreamEvent → List Effect
  | .reqError e =>
    (if canLogError o then
       [Effect.logErrorMsg (fullMsg "Proxy Error: PROXY_REQUEST_ERROR".toList o.additionalLogMessage)]
     else []) ++
    [Effect.callNext (requestVError o.additionalLogMessage (urlPathOf r) host r.body e)]
  | .resError e =>
    (if canLogError o then
       [Effect.logErrorMsg (fullMsg "Proxy Error: PROXY_RESPONSE_ERROR".toList o.additionalLogMessage)]
     else []) ++
    [Effect.callNext (responseVError o.additionalLogMessage (urlPathOf r) host r.body e)]
  | .finish =>
    if canLogInfo o then
      [Effect.logInfoMsg (fullMsg "Proxy end.".toList o.additionalLogMessage)]
    else []

/-- The effects of the whole event trace, in order. -/
def eventsEffects (o : ProxyMiddlewareOptions) (r : Req) (host : Str) : List StreamEvent → List Effect
  | [] => []
  | ev :: rest => eventEffects o r host ev ++ eventsEffects o r host rest

/-- The effects of the early-return branch taken when the resolved host is
not a string: an optional error log and exactly one call of the error
continuation; the stream handlers are never registered. -/
def hostFailEffects (o : ProxyMiddlewareOptions) (r : Req) : List Effect :=
  (if canLogError o then
     [Effect.logErrorMsg (fullMsg "Proxy Error: PROXY_HOST_ERROR".toList o.additionalLogMessage)]
   else []) ++
  [Effect.callNext (hostVError o.additionalLogMessage r.body)]

/-- The start-of-request log effect, when an info-capable logger is
present. -/
def startEffects (o : ProxyMiddlewareOptions) : List Effect :=
  if canLogInfo o then
    [Effect.logInfoMsg (fullMsg "Proxy start.".toList o.additionalLogMessage)]
  else []

/-- The debug header effect: when the feature resolves to true the encoded
curl command is attached, but only when it is a truthy (non-empty) string
whose length is strictly below the cap. -/
def curlEffects (o : ProxyMiddlewareOptions) (r : Req) (d : RequestDescriptor) : List Effect :=
  if resolveAddCurl o r then
    let cmd := encodeURI (createCurlRequest d)
    if cmd ≠ [] ∧ cmd.length < MAX_HEADER_SIZE then [Effect.setHeader xCurlCommandName cmd]
    else []
  else []

/-- One pass of the proxy middleware handler over an inbound request and
the trace of stream events delivered afterwards. -/
def handle (o : ProxyMiddlewareOptions) (r : Req) (events : List StreamEvent) : HandlerResult :=
  match resolveHost o r with
  | JsVal.vstr host =>
    let d := buildDescriptor o r host
    ⟨startEffects o ++ curlEffects o r d ++ eventsEffects o r host events, some d⟩
  | _ => ⟨hostFailEffects o r, none⟩

/-- The ForwardError carried by an effect, when the effect is a call of the
error continuation. -/
def nextOf : Effect → Option ForwardError
  | Effect.callNext err => some err
  | _ => none

/-- The ForwardErrors handed to the error continuation, in order. -/
def nextCalls (res : HandlerResult) : List ForwardError :=
  res.effects.filterMap nextOf

/-- The error continuation call produced by one stream event, if any. -/
def eventNextCall (o : ProxyMiddlewareOptions) (r : Req) (host : Str) : StreamEvent → Option ForwardError
  | .reqError e => some (requestVError o.additionalLogMessage (urlPathOf r) host r.body e)
  | .resError e => some (responseVError o.additionalLogMessage (urlPathOf r) host r.body e)
  | .finish => none

/-- Whether an effect is a logging call. -/
def Effect.isLog : Effect → Bool
  | .logInfoMsg _ => true
  | .logErrorMsg _ => true
  | _ => false

/-- Whether a stream event is an error event. -/
def StreamEvent.isErr : StreamEvent → Bool
  | .finish => false
  | _ => true

/-- A concrete inbound request used by the concrete instantiations below. -/
def sampleReq : Req :=
  ⟨"GET".toList, "/api/users?q=1".toList, "/api".toList,
   JsonValue.jobj [("a".toList, JsonValue.jnum 1)], []⟩

/-- A concrete inbound request whose parsed body is the empty object, the
shape `bodyParser.json()` produces for an absent or empty inbound body. -/
def emptyBodyReq : Req :=
  ⟨"POST".toList, "/api/items".toList, "/api".toList, JsonValue.jobj [], []⟩

/-- A concrete resolved backend host. -/
def sampleHost : Str := "http://backend".toList

/-- A minimal configuration with a fixed string host. -/
def optsPlain : ProxyMiddlewareOptions :=
  ⟨[], HeaderOption.noHeaders, none, UrlHost.fixedHost (JsVal.vstr sampleHost),
   AddCurlHeader.fixedFlag false⟩

/-- A configuration with the debug curl header enabled and one extra
header. -/
def optsCurl : ProxyMiddlewareOptions :=
  ⟨[], HeaderOption.fixedHeaders [("X-Trace".toList, "abc".toList)], none,
   UrlHost.fixedHost (JsVal.vstr sampleHost), AddCurlHeader.fixedFlag true⟩

/-- A configuration whose host resolver returns the number 42, the spec's
misconfiguration scenario. -/
def optsBadHost : ProxyMiddlewareOptions :=
  ⟨[], HeaderOption.noHeaders, none, UrlHost.hostResolver (fun _ => JsVal.vnum 42),
   AddCurlHeader.fixedFlag false⟩

/-- A configuration whose host resolves to the empty string. -/
def optsEmptyHost : ProxyMiddlewareOptions :=
  ⟨[], HeaderOption.noHeaders, none, UrlHost.fixedHost (JsVal.vstr []),
   AddCurlHeader.fixedFlag false⟩

/-- A configuration that overrides one of the default headers. -/
def optsHeaders : ProxyMiddlewareOptions :=
  ⟨[], HeaderOption.fixedHeaders [("Content-Type".toList, "text/plain".toList)], none,
   UrlHost.fixedHost (JsVal.vstr sampleHost), AddCurlHeader.fixedFlag false⟩

/-- A concrete per-request headers resolver. -/
def traceHeaderResolver : HeaderOption :=
  HeaderOption.headersResolver (fun _ => [("X-Trace".toList, "abc".toList)])

/-- A concrete misconfigured host resolver returning the number 42. -/
def badHostResolver : UrlHost :=
  UrlHost.hostResolver (fun _ => JsVal.vnum 42)

theorem listReplaceFirst_leading (hay needle : Str) (h : needle.isPrefixOf hay = true) :
    listReplaceFirst hay needle [] = hay.drop needle.length := by
  cases hay with
  | nil => simp [listReplaceFirst]
  | cons c rest => simp [listReplaceFirst, h]

theorem jsLookup_objSet_self (m : List (Str × Str)) (k v : Str) :
    jsLookup k (objSet m k v) = some v := by
  induction m with
  | nil => simp [objSet, jsLookup]
  | cons kv rest ih =>
    obtain ⟨k1, v1⟩ := kv
    by_cases h : k1 = k
    · simp [objSet, h, jsLookup]
    · simp [objSet, h, jsLookup, ih]

theorem jsLookup_objSet_ne (m : List (Str × Str)) (k k' v : Str) (h : k' ≠ k) :
    jsLookup k (objSet m k' v) = jsLookup k m := by
  induction m with
  | nil => simp [objSet, jsLookup, h]
  | cons kv rest ih =>
    obtain ⟨k1, v1⟩ := kv
    by_cases h1 : k1 = k'
    · subst h1
      simp [objSet, jsLookup, h, fun he : k1 = k => h (he ▸ rfl)]
    · by_cases h2 : k1 = k
      · subst h2
        simp [objSet, h1, jsLookup]
      · simp [objSet, h1, jsLookup, h2, ih]

theorem jsLookup_eq_none_of_not_mem (k : Str) (m : List (Str × Str))
    (h : k ∉ m.map Prod.fst) : jsLookup k m = none := by
  induction m with
  | nil => rfl
  | cons kv rest ih =>
    obtain ⟨k1, v1⟩ := kv
    simp only [List.map_cons, List.mem_cons] at h
    push_neg at h
    have h1 : k1 ≠ k := fun he => h.1 he.symm
    simp [jsLookup, h1, ih h.2]

theorem jsLookup_objSpread_of_none (a b : List (Str × Str)) (k : Str)
    (h : jsLookup k b = none) : jsLookup k (objSpread a b) = jsLookup k a := by
  induction b generalizing a with
  | nil => simp [objSpread]
  | cons kv rest ih =>
    obtain ⟨k1, v1⟩ := kv
    have h1 : k1 ≠ k := by
      intro he
      simp [jsLookup, he] at h
    have h2 : jsLookup k rest = none := by
      simpa [jsLookup, h1] using h
    show jsLookup k (objSpread (objSet a k1 v1) rest) = jsLookup k a
    rw [ih _ h2, jsLookup_objSet_ne _ _ _ _ h1]

theorem jsLookup_objSpread_of_mem (a b : List (Str × Str)) (k v : Str)
    (hnd : (b.map Prod.fst).Nodup) (hm : (k, v) ∈ b) :
    jsLookup k (objSpread a b) = some v := by
  induction b generalizing a with
  | nil => cases hm
  | cons kv rest ih =>
    obtain ⟨k1, v1⟩ := kv
    show jsLookup k (objSpread (objSet a k1 v1) rest) = some v
    simp only [List.map_cons, List.nodup_cons] at hnd
    rcases List.mem_cons.mp hm with heq | hmem
    · obtain ⟨hk, hv⟩ := Prod.mk.injEq .. ▸ heq
      subst hk; subst hv
      have hnone : jsLookup k rest = none :=
        jsLookup_eq_none_of_not_mem _ _ hnd.1
      rw [jsLookup_objSpread_of_none _ _ _ hnone, jsLookup_objSet_self]
    · exact ih (objSet a k1 v1) hnd.2 hmem

theorem handle_of_str (o : ProxyMiddlewareOptions) (r : Req) (evs : List StreamEvent)
    (host : Str) (h : resolveHost o r = JsVal.vstr host) :
    handle o r evs =
      ⟨startEffects o ++ curlEffects o r (buildDescriptor o r host) ++ eventsEffects o r host evs,
       some (buildDescriptor o r host)⟩ := by
  unfold handle
  rw [h]

theorem handle_of_not_str (o : ProxyMiddlewareOptions) (r : Req) (evs : List StreamEvent)
    (h : (resolveHost o r).isString = false) :
    handle o r evs = ⟨hostFailEffects o r, none⟩ := by
  revert h
  unfold handle
  cases resolveHost o r with
  | vstr s => intro h; simp [JsVal.isString] at h
  | vnum n => intro h; rfl
  | vbool b => intro h; rfl
  | vundef => intro h; rfl

theorem filterMap_nextOf_eventEffects (o : ProxyMiddlewareOptions) (r : Req) (host : Str)
    (ev : StreamEvent) :
    (eventEffects o r host ev).filterMap nextOf = (eventNextCall o r host ev).toList := by
  cases ev with
  | reqError e => cases hc : canLogError o <;> simp [eventEffects, eventNextCall, nextOf, hc]
  | resError e => cases hc : canLogError o <;> simp [eventEffects, eventNextCall, nextOf, hc]
  | finish => cases hi : canLogInfo o <;> simp [eventEffects, eventNextCall, nextOf, hi]

theorem filterMap_nextOf_eventsEffects (o : ProxyMiddlewareOptions) (r : Req) (host : Str)
    (evs : List StreamEvent) :
    (eventsEffects o r host evs).filterMap nextOf = evs.filterMap (eventNextCall o r host) := by
  induction evs with
  | nil => simp [eventsEffects]
  | cons ev rest ih =>
    simp only [eventsEffects, List.filterMap_append, List.filterMap_cons,
      filterMap_nextOf_eventEffects, ih]
    cases eventNextCall o r host ev <;> simp

theorem filterMap_nextOf_startEffects (o : ProxyMiddlewareOptions) :
    (startEffects o).filterMap nextOf = [] := by
  cases hi : canLogInfo o <;> simp [startEffects, hi, nextOf]

theorem filterMap_nextOf_curlEffects (o : ProxyMiddlewareOptions) (r : Req)
    (d : RequestDescriptor) : (curlEffects o r d).filterMap nextOf = [] := by
  unfold curlEffects
  split
  · dsimp only
    split <;> simp [nextOf]
  · rfl

theorem nextCalls_handle_of_str (o : ProxyMiddlewareOptions) (r : Req) (evs : List StreamEvent)
    (host : Str) (h : resolveHost o r = JsVal.vstr host) :
    nextCalls (handle o r evs) = evs.filterMap (eventNextCall o r host) := by
  rw [handle_of_str o r evs host h]
  unfold nextCalls
  simp only [List.filterMap_append, filterMap_nextOf_startEffects,
    filterMap_nextOf_curlEffects, filterMap_nextOf_eventsEffects]
  simp

theorem nextCalls_handle_of_not_str (o : ProxyMiddlewareOptions) (r : Req)
    (evs : List StreamEvent) (h : (resolveHost o r).isString = false) :
    nextCalls (handle o r evs) = [hostVError o.additionalLogMessage r.body] := by
  rw [handle_of_not_str o r evs h]
  cases hc : canLogError o <;> simp [nextCalls, hostFailEffects, hc, nextOf]

theorem setHeader_not_mem_startEffects (o : ProxyMiddlewareOptions) (n v : Str) :
    Effect.setHeader n v ∉ startEffects o := by
  cases hi : canLogInfo o <;> simp [startEffects, hi]

theorem setHeader_not_mem_eventEffects (o : ProxyMiddlewareOptions) (r : Req) (host : Str)
    (n v : Str) (ev : StreamEvent) : Effect.setHeader n v ∉ eventEffects o r host ev := by
  cases ev with
  | reqError e => cases hc : canLogError o <;> simp [eventEffects, hc]
  | resError e => cases hc : canLogError o <;> simp [eventEffects, hc]
  | finish => cases hi : canLogInfo o <;> simp [eventEffects, hi]

theorem setHeader_not_mem_eventsEffects (o : ProxyMiddlewareOptions) (r : Req) (host : Str)
    (n v : Str) (evs : List StreamEvent) : Effect.setHeader n v ∉ eventsEffects o r host evs := by
  induction evs with
  | nil => simp [eventsEffects]
  | cons ev rest ih =>
    simp only [eventsEffects, List.mem_append]
    rintro (hm | hm)
    · exact setHeader_not_mem_eventEffects o r host n v ev hm
    · exact ih hm

theorem utf8Bytes_ne_nil (n : Nat) : utf8Bytes n ≠ [] := by
  unfold utf8Bytes
  repeat' split
  all_goals simp

theorem encodeURIChar_ne_nil (c : Char) : encodeURIChar c ≠ [] := by
  unfold encodeURIChar
  split
  · simp
  · cases h : utf8Bytes c.toNat with
    | nil => exact absurd h (utf8Bytes_ne_nil c.toNat)
    | cons b rest => simp [percentEncodeByte]

theorem encodeURI_cons_ne_nil (c : Char) (s : Str) : encodeURI (c :: s) ≠ [] := by
  unfold encodeURI
  simp only [List.map_cons, List.flatten_cons]
  intro h
  rcases List.append_eq_nil.mp h with ⟨h1, _⟩
  exact encodeURIChar_ne_nil c h1

theorem encoded_curl_ne_nil (d : RequestDescriptor) :
    encodeURI (createCurlRequest d) ≠ [] := by
  unfold createCurlRequest
  exact encodeURI_cons_ne_nil _ _

theorem isLog_false_of_mem_curlEffects (o : ProxyMiddlewareOptions) (r : Req)
    (d : RequestDescriptor) (e : Effect) (h : e ∈ curlEffects o r d) : e.isLog = false := by
  unfold curlEffects at h
  split at h
  · dsimp only at h
    split at h
    · simp only [List.mem_singleton] at h
      subst h
      rfl
    · cases h
  · cases h

theorem curlEffects_filter_not_isLog (o : ProxyMiddlewareOptions) (r : Req)
    (d : RequestDescriptor) :
    (curlEffects o r d).filter (fun e => !e.isLog) = curlEffects o r d := by
  unfold curlEffects
  split
  · dsimp only
    split <;> simp [Effect.isLog]
  · rfl

theorem curlEffects_eq (o : ProxyMiddlewareOptions) (r : Req) (d : RequestDescriptor) :
    curlEffects o r d =
      if resolveAddCurl o r ∧ encodeURI (createCurlRequest d) ≠ [] ∧
          (encodeURI (createCurlRequest d)).length < MAX_HEADER_SIZE then
        [Effect.setHeader xCurlCommandName (encodeURI (createCurlRequest d))]
      else [] := by
  unfold curlEffects
  cases h1 : resolveAddCurl o r
  · simp [h1]
  · dsimp only
    by_cases h2 : encodeURI (createCurlRequest d) ≠ [] ∧
        (encodeURI (createCurlRequest d)).length < MAX_HEADER_SIZE
    · simp [h1, h2]
    · simp [h1, h2]

theorem eventsEffects_no_logger (alm : Str) (hdr : HeaderOption) (uh : UrlHost)
    (ac : AddCurlHeader) (l : LoggerShape) (r : Req) (host : Str) (evs : List StreamEvent) :
    eventsEffects (ProxyMiddlewareOptions.mk alm hdr none uh ac) r host evs =
      (eventsEffects (ProxyMiddlewareOptions.mk alm hdr (some l) uh ac) r host evs).filter
        (fun e => !e.isLog) := by
  induction evs with
  | nil => rfl
  | cons ev rest ih =>
    simp only [eventsEffects, List.filter_append]
    rw [← ih]
    congr 1
    cases ev with
    | reqError e => cases hl : l.hasError <;>
        simp [eventEffects, canLogError, hl, Effect.isLog]
    | resError e => cases hl : l.hasError <;>
        simp [eventEffects, canLogError, hl, Effect.isLog]
    | finish => cases hl : l.hasInfo <;>
        simp [eventEffects, canLogInfo, hl, Effect.isLog]

theorem no_logger_equiv_of_fail (alm : Str) (hdr : HeaderOption) (uh : UrlHost)
    (ac : AddCurlHeader) (l : LoggerShape) (r : Req) (evs : List StreamEvent)
    (hfail : (resolveHost (ProxyMiddlewareOptions.mk alm hdr none uh ac) r).isString = false) :
    (∀ e ∈ (handle (ProxyMiddlewareOptions.mk alm hdr none uh ac) r evs).effects,
        e.isLog = false) ∧
    (handle (ProxyMiddlewareOptions.mk alm hdr none uh ac) r evs).outbound =
      (handle (ProxyMiddlewareOptions.mk alm hdr (some l) uh ac) r evs).outbound ∧
    (handle (ProxyMiddlewareOptions.mk alm hdr none uh ac) r evs).effects =
      ((handle (ProxyMiddlewareOptions.mk alm hdr (some l) uh ac) r evs).effects.filter
        (fun e => !e.isLog)) := by
  have hfail2 : (resolveHost (ProxyMiddlewareOptions.mk alm hdr (some l) uh ac) r).isString =
      false := hfail
  rw [handle_of_not_str _ _ _ hfail, handle_of_not_str _ _ _ hfail2]
  refine ⟨?_, rfl, ?_⟩
  · intro e he
    simp [hostFailEffects, canLogError] at he
    subst he
    rfl
  · cases hl : l.hasError <;>
      simp [hostFailEffects, canLogError, hl, Effect.isLog]

/-- Claim C1: for every inbound request whose host resolves to a non-empty
string (with the mount prefix, as the hosting router guarantees, a prefix
of the original url), the outbound request url is exactly the resolved
host concatenated directly with the original url minus that prefix — the
remainder, query string included, carried verbatim with no slash
normalization and no re-encoding. -/
theorem claim1_destination_url (o : ProxyMiddlewareOptions) (r : Req) (evs : List StreamEvent)
    (host : Str) (hres : resolveHost o r = JsVal.vstr host) (hne : host ≠ [])
    (hpre : r.baseUrl.isPrefixOf r.originalUrl = true) :
    ∃ d, (handle o r evs).outbound = some d ∧
      d.url = host ++ r.originalUrl.drop r.baseUrl.length := by
  refine ⟨buildDescriptor o r host, by rw [handle_of_str o r evs host hres], ?_⟩
  show host ++ urlPathOf r = host ++ r.originalUrl.drop r.baseUrl.length
  unfold urlPathOf
  rw [listReplaceFirst_leading _ _ hpre]

/-- Concrete instantiation of the C1 theorem. -/
theorem claim1_witness :
    resolveHost optsPlain sampleReq = JsVal.vstr sampleHost ∧
    sampleHost ≠ [] ∧
    sampleReq.baseUrl.isPrefixOf sampleReq.originalUrl = true ∧
    ∃ d, (handle optsPlain sampleReq []).outbound = some d ∧
      d.url = sampleHost ++ sampleReq.originalUrl.drop sampleReq.baseUrl.length :=
  ⟨rfl, by decide, rfl,
   claim1_destination_url optsPlain sampleReq [] sampleHost rfl (by decide) rfl⟩

/-- Claim C2 counterexample: the code only checks `typeof host !==
'string'`, so a host that resolves to the empty string — which is not a
non-empty string — is forwarded: no error continuation call is made and an
outbound request is issued, contradicting the claim at this input. -/
theorem claim2_counterexample :
    (handle optsEmptyHost sampleReq []).outbound =
      some (buildDescriptor optsEmptyHost sampleReq []) ∧
    nextCalls (handle optsEmptyHost sampleReq []) = [] :=
  ⟨rfl, rfl⟩

/-- Claim C2 (amended): for every inbound request whose resolved host is
not a string at all (for example a resolver returning 42), the handler
calls the error continuation with the host-resolution error kind and no
outbound request is issued; a host that is a string — even the empty
string — is forwarded instead. -/
theorem claim2_amended_host_error (o : ProxyMiddlewareOptions) (r : Req)
    (evs : List StreamEvent) (h : (resolveHost o r).isString = false) :
    ∃ err, nextCalls (handle o r evs) = [err] ∧ err.name = HOST_RESOLUTION_ERROR ∧
      (handle o r evs).outbound = none :=
  ⟨hostVError o.additionalLogMessage r.body,
   nextCalls_handle_of_not_str o r evs h, rfl, by rw [handle_of_not_str o r evs h]⟩

/-- Concrete instantiation of the amended C2 theorem: the resolver returns
the number 42. -/
theorem claim2_witness :
    (resolveHost optsBadHost sampleReq).isString = false ∧
    ∃ err, nextCalls (handle optsBadHost sampleReq []) = [err] ∧
      err.name = HOST_RESOLUTION_ERROR ∧
      (handle optsBadHost sampleReq []).outbound = none :=
  ⟨rfl, claim2_amended_host_error optsBadHost sampleReq [] rfl⟩

/-- Claim C3: for every inbound request that reaches request composition,
the outbound body is exactly the JSON serialization of the parsed inbound
body with no transformation, and an empty parsed body (the empty object
`bodyParser.json()` produces when the inbound body is absent or empty)
still yields a serialized empty structure, never an omitted body. -/
theorem claim3_body_serialization (o : ProxyMiddlewareOptions) (r : Req)
    (evs : List StreamEvent) (host : Str) (hres : resolveHost o r = JsVal.vstr host) :
    ∃ d, (handle o r evs).outbound = some d ∧ d.body = jsonStringify r.body ∧
      (r.body = JsonValue.jobj [] → d.body = [lcurly, rcurly]) := by
  refine ⟨buildDescriptor o r host, by rw [handle_of_str o r evs host hres], rfl, ?_⟩
  intro hb
  show jsonStringify r.body = [lcurly, rcurly]
  rw [hb]
  rfl

/-- Concrete instantiation of the C3 theorem on a request with an empty
parsed body. -/
theorem claim3_witness :
    resolveHost optsPlain emptyBodyReq = JsVal.vstr sampleHost ∧
    ∃ d, (handle optsPlain emptyBodyReq []).outbound = some d ∧
      d.body = jsonStringify emptyBodyReq.body ∧
      (emptyBodyReq.body = JsonValue.jobj [] → d.body = [lcurly, rcurly]) :=
  ⟨rfl, claim3_body_serialization optsPlain emptyBodyReq [] sampleHost rfl⟩

/-- Claim C4: for every configured header mapping with distinct keys, the
merged outbound headers keep every default JSON header whose name is not
supplied in the configuration, and every configured key takes its
configured value. -/
theorem claim4_default_header_merge (o : ProxyMiddlewareOptions) (r : Req)
    (hnd : ((configHeaders o r).map Prod.fst).Nodup) :
    (∀ k v, (k, v) ∈ defaultHeaders → jsLookup k (configHeaders o r) = none →
        jsLookup k (resolveHeaders o r) = some v) ∧
    (∀ k v, (k, v) ∈ configHeaders o r → jsLookup k (resolveHeaders o r) = some v) := by
  constructor
  · intro k v hd hnone
    unfold resolveHeaders
    rw [jsLookup_objSpread_of_none _ _ _ hnone]
    simp only [defaultHeaders, List.mem_cons, List.not_mem_nil, or_false,
      Prod.mk.injEq] at hd
    rcases hd with ⟨hk, hv⟩ | ⟨hk, hv⟩ <;> (subst hk; subst hv; decide)
  · intro k v hc
    unfold resolveHeaders
    exact jsLookup_objSpread_of_mem _ _ _ _ hnd hc

/-- Concrete instantiation of the C4 theorem: a configuration overriding
Content-Type keeps the default Accept and wins on Content-Type. -/
theorem claim4_witness :
    ((configHeaders optsHeaders sampleReq).map Prod.fst).Nodup ∧
    jsLookup "Accept".toList (resolveHeaders optsHeaders sampleReq) =
      some "application/json".toList ∧
    jsLookup "Content-Type".toList (resolveHeaders optsHeaders sampleReq) =
      some "text/plain".toList :=
  ⟨by decide,
   (claim4_default_header_merge optsHeaders sampleReq (by decide)).1 _ _ (by decide) (by decide),
   (claim4_default_header_merge optsHeaders sampleReq (by decide)).2 _ _ (by decide)⟩

/-- Claim C5: for every request with the debug-curl-header feature enabled
and a resolved string host, the percent-encoded command reconstruction is
attached as the response header exactly when its encoded length is
strictly below the fixed cap of 40960 characters; at or above the cap the
header is silently omitted while the outbound request is still issued. -/
theorem claim5_curl_header_cap (o : ProxyMiddlewareOptions) (r : Req) (evs : List StreamEvent)
    (host : Str) (hres : resolveHost o r = JsVal.vstr host)
    (hadd : resolveAddCurl o r = true) :
    (Effect.setHeader xCurlCommandName
        (encodeURI (createCurlRequest (buildDescriptor o r host))) ∈
          (handle o r evs).effects ↔
      (encodeURI (createCurlRequest (buildDescriptor o r host))).length < MAX_HEADER_SIZE) ∧
    (handle o r evs).outbound = some (buildDescriptor o r host) := by
  rw [handle_of_str o r evs host hres]
  refine ⟨?_, rfl⟩
  have hne := encoded_curl_ne_nil (buildDescriptor o r host)
  constructor
  · intro hm
    simp only [List.mem_append] at hm
    rcases hm with (hm | hm) | hm
    · exact absurd hm (setHeader_not_mem_startEffects o _ _)
    · rw [curlEffects_eq] at hm
      by_cases hlt : (encodeURI (createCurlRequest (buildDescriptor o r host))).length <
          MAX_HEADER_SIZE
      · exact hlt
      · rw [if_neg] at hm
        · cases hm
        · rintro ⟨-, -, hc⟩
          exact hlt hc
    · exact absurd hm (setHeader_not_mem_eventsEffects o r host _ _ evs)
  · intro hlt
    simp only [List.mem_append]
    left; right
    rw [curlEffects_eq, if_pos ⟨hadd, hne, hlt⟩]
    simp

/-- Concrete instantiation of the C5 theorem on a small request whose
encoded command is far below the cap. -/
theorem claim5_witness :
    resolveHost optsCurl sampleReq = JsVal.vstr sampleHost ∧
    resolveAddCurl optsCurl sampleReq = true ∧
    ((Effect.setHeader xCurlCommandName
        (encodeURI (createCurlRequest (buildDescriptor optsCurl sampleReq sampleHost))) ∈
          (handle optsCurl sampleReq []).effects ↔
      (encodeURI (createCurlRequest
        (buildDescriptor optsCurl sampleReq sampleHost))).length < MAX_HEADER_SIZE) ∧
    (handle optsCurl sampleReq []).outbound =
      some (buildDescriptor optsCurl sampleReq sampleHost)) :=
  ⟨rfl, rfl, claim5_curl_header_cap optsCurl sampleReq [] sampleHost rfl rfl⟩

/-- Claim C6: for every request whose outbound transport reports an error
before a response, the handler hands exactly one error to the continuation
for that failure, with the upstream-request kind, the underlying cause,
and the destination url in its payload. -/
theorem claim6_upstream_request_error (o : ProxyMiddlewareOptions) (r : Req)
    (host : Str) (e : TransportErr) (hres : resolveHost o r = JsVal.vstr host) :
    ∃ err, nextCalls (handle o r [StreamEvent.reqError e]) = [err] ∧
      err.name = UPSTREAM_REQUEST_ERROR ∧ err.cause = some e ∧
      err.metaUrl = some (host ++ urlPathOf r) := by
  refine ⟨requestVError o.additionalLogMessage (urlPathOf r) host r.body e, ?_, rfl, rfl, rfl⟩
  rw [nextCalls_handle_of_str o r [StreamEvent.reqError e] host hres]
  rfl

/-- Concrete instantiation of the C6 theorem on a connection-refused
transport error. -/
theorem claim6_witness :
    resolveHost optsPlain sampleReq = JsVal.vstr sampleHost ∧
    ∃ err, nextCalls (handle optsPlain sampleReq
        [StreamEvent.reqError ⟨"connection refused".toList⟩]) = [err] ∧
      err.name = UPSTREAM_REQUEST_ERROR ∧
      err.cause = some ⟨"connection refused".toList⟩ ∧
      err.metaUrl = some (sampleHost ++ urlPathOf sampleReq) :=
  ⟨rfl, claim6_upstream_request_error optsPlain sampleReq sampleHost
    ⟨"connection refused".toList⟩ rfl⟩

/-- Claim C7 counterexample: the handlers registered on the two streams
call the error continuation unconditionally, with no first-failure guard,
so a trace delivering an error event on the outbound request stream and
then one on the piped response stream surfaces two ForwardErrors for one
request. -/
theorem claim7_counterexample :
    ¬ (nextCalls (handle optsPlain sampleReq
        [StreamEvent.reqError ⟨"refused".toList⟩,
         StreamEvent.resError ⟨"aborted".toList⟩])).length ≤ 1 := by
  have h2 : (nextCalls (handle optsPlain sampleReq
      [StreamEvent.reqError ⟨"refused".toList⟩,
       StreamEvent.resError ⟨"aborted".toList⟩])).length = 2 := rfl
  rw [h2]
  omega

/-- Claim C7 (amended): the handler surfaces exactly one ForwardError per
stream error event (and exactly one, with no events consulted, when host
resolution fails); in particular a request whose streams deliver at most
one error event surfaces at most one ForwardError, but nothing in the
code suppresses a second error path after the first. -/
theorem claim7_amended_error_count (o : ProxyMiddlewareOptions) (r : Req)
    (evs : List StreamEvent) :
    (nextCalls (handle o r evs)).length =
      if (resolveHost o r).isString then (evs.filter StreamEvent.isErr).length else 1 := by
  cases hres : resolveHost o r with
  | vstr host =>
    have hcond : (JsVal.vstr host).isString = true := rfl
    rw [nextCalls_handle_of_str o r evs host hres, if_pos hcond]
    induction evs with
    | nil => rfl
    | cons ev rest ih =>
      cases ev <;> simp [List.filterMap_cons, List.filter_cons, eventNextCall,
        StreamEvent.isErr, ih]
  | vnum n =>
    rw [nextCalls_handle_of_not_str o r evs (by rw [hres]; rfl),
      if_neg (by simp [JsVal.isString])]
    rfl
  | vbool b =>
    rw [nextCalls_handle_of_not_str o r evs (by rw [hres]; rfl),
      if_neg (by simp [JsVal.isString])]
    rfl
  | vundef =>
    rw [nextCalls_handle_of_not_str o r evs (by rw [hres]; rfl),
      if_neg (by simp [JsVal.isString])]
    rfl

/-- Claim C8: with no logger configured no logging call is ever made, and
the forwarding outcome — the outbound descriptor and every non-logging
effect — is identical to the same request handled with any logger
present. -/
theorem claim8_no_logger_equiv (alm : Str) (hdr : HeaderOption) (uh : UrlHost)
    (ac : AddCurlHeader) (l : LoggerShape) (r : Req) (evs : List StreamEvent) :
    (∀ e ∈ (handle (ProxyMiddlewareOptions.mk alm hdr none uh ac) r evs).effects,
        e.isLog = false) ∧
    (handle (ProxyMiddlewareOptions.mk alm hdr none uh ac) r evs).outbound =
      (handle (ProxyMiddlewareOptions.mk alm hdr (some l) uh ac) r evs).outbound ∧
    (handle (ProxyMiddlewareOptions.mk alm hdr none uh ac) r evs).effects =
      ((handle (ProxyMiddlewareOptions.mk alm hdr (some l) uh ac) r evs).effects.filter
        (fun e => !e.isLog)) := by
  cases hres : resolveHost (ProxyMiddlewareOptions.mk alm hdr none uh ac) r with
  | vstr host =>
    have hres2 : resolveHost (ProxyMiddlewareOptions.mk alm hdr (some l) uh ac) r =
        JsVal.vstr host := hres
    rw [handle_of_str _ _ _ _ hres, handle_of_str _ _ _ _ hres2]
    have hstart2 : (startEffects (ProxyMiddlewareOptions.mk alm hdr (some l) uh ac)).filter
        (fun e => !e.isLog) = [] := by
      cases hl : l.hasInfo <;> simp [startEffects, canLogInfo, hl, Effect.isLog]
    refine ⟨?_, rfl, ?_⟩
    · intro e he
      simp only [List.mem_append] at he
      rcases he with (he | he) | he
      · cases he
      · exact isLog_false_of_mem_curlEffects _ _ _ e he
      · rw [eventsEffects_no_logger alm hdr uh ac l r host evs] at he
        have hb := (List.mem_filter.mp he).2
        simpa using hb
    · rw [List.filter_append, List.filter_append, hstart2,
        curlEffects_filter_not_isLog, ← eventsEffects_no_logger]
      rfl
  | vnum n =>
    exact no_logger_equiv_of_fail alm hdr uh ac l r evs (by rw [hres]; rfl)
  | vbool b =>
    exact no_logger_equiv_of_fail alm hdr uh ac l r evs (by rw [hres]; rfl)
  | vundef =>
    exact no_logger_equiv_of_fail alm hdr uh ac l r evs (by rw [hres]; rfl)

/-- Claim C9: forwarding the same inbound request with the same (pure,
hence deterministic) host and header resolution always composes the same
outbound descriptor — the descriptor does not depend on the stream events
of either pass, so two passes agree on method, url, headers and body. -/
theorem claim9_idempotent_descriptor (o : ProxyMiddlewareOptions) (r : Req)
    (evs1 evs2 : List StreamEvent) :
    (handle o r evs1).outbound = (handle o r evs2).outbound := by
  unfold handle
  cases resolveHost o r <;> rfl

/-- Claim C10: when the resolved host is not a string the handler returns
right after calling the error continuation: the result does not depend on
the configured headers option at all (so a headers resolver is never
invoked), no outbound request is issued, and no response header is set. -/
theorem claim10_host_error_atomicity (alm : Str) (h1 h2 : HeaderOption)
    (lg : Option LoggerShape) (uh : UrlHost) (ac : AddCurlHeader) (r : Req)
    (evs : List StreamEvent)
    (hfail : (resolveHost (ProxyMiddlewareOptions.mk alm h1 lg uh ac) r).isString = false) :
    handle (ProxyMiddlewareOptions.mk alm h1 lg uh ac) r evs =
      handle (ProxyMiddlewareOptions.mk alm h2 lg uh ac) r evs ∧
    (handle (ProxyMiddlewareOptions.mk alm h1 lg uh ac) r evs).outbound = none ∧
    ∀ n v, Effect.setHeader n v ∉
      (handle (ProxyMiddlewareOptions.mk alm h1 lg uh ac) r evs).effects := by
  have hfail2 : (resolveHost (ProxyMiddlewareOptions.mk alm h2 lg uh ac) r).isString =
      false := hfail
  rw [handle_of_not_str _ _ _ hfail, handle_of_not_str _ _ _ hfail2]
  refine ⟨rfl, rfl, ?_⟩
  intro n v
  cases hc : canLogError (ProxyMiddlewareOptions.mk alm h1 lg uh ac) <;>
    simp [hostFailEffects, hc]

/-- Concrete instantiation of the C10 theorem: with a misconfigured host
resolver, a configuration with a headers resolver behaves identically to
one with no headers at all. -/
theorem claim10_witness :
    (resolveHost (ProxyMiddlewareOptions.mk [] traceHeaderResolver none badHostResolver
        (AddCurlHeader.fixedFlag false)) sampleReq).isString = false ∧
    (handle (ProxyMiddlewareOptions.mk [] traceHeaderResolver none badHostResolver
        (AddCurlHeader.fixedFlag false)) sampleReq [] =
      handle (ProxyMiddlewareOptions.mk [] HeaderOption.noHeaders none badHostResolver
        (AddCurlHeader.fixedFlag false)) sampleReq [] ∧
    (handle (ProxyMiddlewareOptions.mk [] traceHeaderResolver none badHostResolver
        (AddCurlHeader.fixedFlag false)) sampleReq []).outbound = none ∧
    ∀ n v, Effect.setHeader n v ∉
      (handle (ProxyMiddlewareOptions.mk [] traceHeaderResolver none badHostResolver
        (AddCurlHeader.fixedFlag false)) sampleReq []).effects) :=
  ⟨rfl, claim10_host_error_atomicity [] traceHeaderResolver HeaderOption.noHeaders none
    badHostResolver (AddCurlHeader.fixedFlag false) sampleReq [] rfl⟩
